import Mathlib

/-!
Verification of the prettycli VS Code extension core against its
natural-language specification.

The TypeScript sources are shallowly embedded as Lean definitions:

* `DiffRenderer.computeDiff` / `DiffRenderer.longestCommonSubsequence`
  (src/renderers/diff.ts) become `computeDiff` / `longestCommonSubsequence`
  below, working over `List String` in place of JS arrays.
* `PluginManager` (src/pluginManager.ts), `ApiServer.handleMessage` /
  `processMessage` (src/apiServer.ts), `PanelManager` (src/panelManager.ts)
  and `SessionManager` (src/sessionManager.ts) become pure state-passing
  functions over explicit state records; the host runtime (clock, random
  suffixes, workspace root, file system) is passed in as an explicit
  environment record, and JS exceptions are modelled with `Except String`.
-/

set_option autoImplicit false

namespace PrettyCli

/-! ## Diff engine (src/renderers/diff.ts)

`dp a b i j` is the DP table entry `dp[i][j]` of
`DiffRenderer.longestCommonSubsequence`: the table is indexed so that
`dp[i][j]` talks about the prefixes `a[0..i)` and `b[0..j)`, with
`dp[i][0] = dp[0][j] = 0` and the recurrence from the source:
`dp[i][j] = dp[i-1][j-1] + 1` when `a[i-1] === b[j-1]`, else
`max(dp[i-1][j], dp[i][j-1])`.  Array indexing `a[i-1]` is embedded as
`a.getD (i-1) ""`; the default is never consulted for the index ranges the
source uses. -/

def dp (a b : List String) : Nat → Nat → Nat
  | 0, _ => 0
  | _ + 1, 0 => 0
  | i + 1, j + 1 =>
    if a.getD i "" = b.getD j "" then
      dp a b i j + 1
    else
      max (dp a b i (j + 1)) (dp a b (i + 1) j)
  termination_by i j => (i, j)

/-- The backtracking loop of `longestCommonSubsequence` (source lines
158-173): starting from `(m, n)`, on a match move diagonally and `unshift`
the matched line; otherwise move up (`i--`) when `dp[i-1][j] > dp[i][j-1]`
and left (`j--`) otherwise.  The JS `result.unshift(x)` before continuing
downward is embedded by consing onto the accumulator `acc`, which yields the
same front-to-back order. -/
def backtrack (a b : List String) : Nat → Nat → List String → List String
  | i + 1, j + 1, acc =>
    if a.getD i "" = b.getD j "" then
      backtrack a b i j (a.getD i "" :: acc)
    else if dp a b i (j + 1) > dp a b (i + 1) j then
      backtrack a b i (j + 1) acc
    else
      backtrack a b (i + 1) j acc
  | 0, _, acc => acc
  | _ + 1, 0, acc => acc
  termination_by i j _ => (i, j)

/-- `DiffRenderer.longestCommonSubsequence a b` (source lines 143-174). -/
def longestCommonSubsequence (a b : List String) : List String :=
  backtrack a b a.length b.length []

/-- The `type` field of a diff row: `'same' | 'added' | 'removed' | 'empty'`. -/
inductive RowKind where
  | same
  | added
  | removed
  | empty
  deriving DecidableEq, Repr

/-- One row of a diff panel: `{ line, type, num }` from `computeDiff`. -/
structure Row where
  line : String
  type : RowKind
  num : Option Nat
  deriving DecidableEq, Repr

/-- The result record of `DiffRenderer.computeDiff`:
`{ left, right, addedCount, removedCount }`. -/
structure DiffResult where
  left : List Row
  right : List Row
  addedCount : Nat
  removedCount : Nat
  deriving DecidableEq, Repr

/-- The `while (oi < original.length || mi < modified.length)` loop of
`computeDiff` (source lines 109-138).  The loop only ever inspects
`original[oi]`, `modified[mi]`, `lcs[li]`, so the three cursors are embedded
by the not-yet-consumed suffixes `o`, `m`, `l`; the numeric cursors `oi`,
`mi` are kept alongside because the source stores `oi + 1` / `mi + 1` as the
1-based line number of each pushed row.  `left`/`right` accumulate rows in
reverse (JS `push` = cons here, reversed on exit).

One source branch is unreachable: inside the first branch (`original[oi] ===
lcs[li]`) with `modified` exhausted, the JS code would read past the end of
`modified` and loop without consuming input; `computeDiff` only calls the
loop with `lcs` a common subsequence of `modified`, so a pending LCS element
always has a match left in `modified`.  The embedding returns the state
accumulated so far in that impossible case. -/
def diffLoop (o m l : List String) (oi mi : Nat) (left right : List Row)
    (addedCount removedCount : Nat) : DiffResult :=
  match o, m, l with
  | oh :: ot, m', lh :: lt =>
    if oh = lh then
      match m' with
      | mh :: mt =>
        if mh = lh then
          -- Same line
          diffLoop ot mt lt (oi + 1) (mi + 1)
            (⟨oh, .same, some (oi + 1)⟩ :: left)
            (⟨mh, .same, some (mi + 1)⟩ :: right) addedCount removedCount
        else
          -- Added in modified
          diffLoop (oh :: ot) mt (lh :: lt) oi (mi + 1)
            (⟨"", .empty, none⟩ :: left)
            (⟨mh, .added, some (mi + 1)⟩ :: right) (addedCount + 1) removedCount
      | [] =>
        -- unreachable when l is a common subsequence of m
        ⟨left.reverse, right.reverse, addedCount, removedCount⟩
    else
      -- Removed from original
      diffLoop ot m' (lh :: lt) (oi + 1) mi
        (⟨oh, .removed, some (oi + 1)⟩ :: left)
        (⟨"", .empty, none⟩ :: right) addedCount (removedCount + 1)
  | oh :: ot, m', [] =>
    -- Removed from original (lcs exhausted)
    diffLoop ot m' [] (oi + 1) mi
      (⟨oh, .removed, some (oi + 1)⟩ :: left)
      (⟨"", .empty, none⟩ :: right) addedCount (removedCount + 1)
  | [], mh :: mt, l' =>
    -- Added in modified
    diffLoop [] mt l' oi (mi + 1)
      (⟨"", .empty, none⟩ :: left)
      (⟨mh, .added, some (mi + 1)⟩ :: right) (addedCount + 1) removedCount
  | [], [], _ => ⟨left.reverse, right.reverse, addedCount, removedCount⟩
  termination_by o.length + m.length

/-- `DiffRenderer.computeDiff` (source lines 94-141). -/
def computeDiff (original modified : List String) : DiffResult :=
  diffLoop original modified (longestCommonSubsequence original modified)
    0 0 [] [] 0 0

/-- The strings of the left diff column that the spec reads back as the
original sequence: the `line` fields of the rows of kind `same` or
`removed`, in order. -/
def leftLines (rows : List Row) : List String :=
  rows.filterMap fun row =>
    if row.type = RowKind.same ∨ row.type = RowKind.removed then
      some row.line
    else
      none

/-- The strings of the right diff column that the spec reads back as the
modified sequence: the `line` fields of the rows of kind `same` or `added`,
in order. -/
def rightLines (rows : List Row) : List String :=
  rows.filterMap fun row =>
    if row.type = RowKind.same ∨ row.type = RowKind.added then
      some row.line
    else
      none

/-! ### LCS length, head-recursively

`lcsLen` is the textbook longest-common-subsequence length, recursing on the
heads of the two lists; it is the specification yardstick against which the
index-based `dp` table of the source is measured (`dp_eq_lcsLen`). -/

def lcsLen : List String → List String → Nat
  | [], _ => 0
  | _ :: _, [] => 0
  | x :: xs, y :: ys =>
    if x = y then
      lcsLen xs ys + 1
    else
      max (lcsLen (x :: xs) ys) (lcsLen xs (y :: ys))
  termination_by xs ys => (xs.length, ys.length)

theorem lcsLen_nil_right (xs : List String) : lcsLen xs [] = 0 := by
  cases xs <;> simp [lcsLen]

theorem tail_sublist_of_cons_sublist_cons {z x : String} {l xs : List String}
    (h : (z :: l).Sublist (x :: xs)) : l.Sublist xs := by
  cases h with
  | cons _ h => exact ((List.sublist_cons_self z l).trans h)
  | cons₂ _ h => exact h

theorem cons_sublist_of_ne {z x : String} {l xs : List String}
    (h : (z :: l).Sublist (x :: xs)) (hne : z ≠ x) : (z :: l).Sublist xs := by
  cases h with
  | cons _ h => exact h
  | cons₂ _ h => exact absurd rfl hne

/-- Every common subsequence is at most `lcsLen` long. -/
theorem length_le_lcsLen :
    ∀ xs ys l : List String, l.Sublist xs → l.Sublist ys →
      l.length ≤ lcsLen xs ys := by
  intro xs ys
  induction xs, ys using lcsLen.induct with
  | case1 ys =>
    intro l hx _
    simp [List.sublist_nil.mp hx, lcsLen]
  | case2 x xs =>
    intro l _ hy
    simp [List.sublist_nil.mp hy, lcsLen_nil_right]
  | case3 xs y ys ih =>
    intro l hx hy
    rw [lcsLen, if_pos rfl]
    match l with
    | [] => simp
    | z :: l' =>
      have hx' : l'.Sublist xs := tail_sublist_of_cons_sublist_cons hx
      have hy' : l'.Sublist ys := tail_sublist_of_cons_sublist_cons hy
      have := ih l' hx' hy'
      simpa using Nat.add_le_add_right this 1
  | case4 x xs y ys hne ih1 ih2 =>
    intro l hx hy
    rw [lcsLen, if_neg hne]
    match l with
    | [] => simp
    | z :: l' =>
      by_cases hz : z = x
      · subst hz
        have hy' : (z :: l').Sublist ys := cons_sublist_of_ne hy (fun h => hne h)
        exact le_trans (ih1 (z :: l') hx hy') (Nat.le_max_left _ _)
      · have hx' : (z :: l').Sublist xs := cons_sublist_of_ne hx hz
        exact le_trans (ih2 (z :: l') hx' hy) (Nat.le_max_right _ _)

theorem reverse_take_succ {a : List String} {i : Nat} (h : i < a.length) :
    (a.take (i + 1)).reverse = a.getD i "" :: (a.take i).reverse := by
  rw [List.take_succ]
  simp [List.getElem?_eq_getElem h]

/-- The source's DP table measures exactly the reference LCS length of the
(reversed) prefixes. -/
theorem dp_eq_lcsLen (a b : List String) :
    ∀ i j, i ≤ a.length → j ≤ b.length →
      dp a b i j = lcsLen ((a.take i).reverse) ((b.take j).reverse) := by
  intro i j
  induction i, j using dp.induct a b with
  | case1 j =>
    intro _ _
    simp [dp, lcsLen]
  | case2 i =>
    intro _ _
    simp [dp, lcsLen_nil_right]
  | case3 i j h ih =>
    intro hi hj
    have hi' : i < a.length := hi
    have hj' : j < b.length := hj
    rw [reverse_take_succ hi', reverse_take_succ hj', lcsLen, if_pos h]
    simp only [dp]
    rw [if_pos h, ih (Nat.le_of_lt hi') (Nat.le_of_lt hj')]
  | case4 i j h ih1 ih2 =>
    intro hi hj
    have hi' : i < a.length := hi
    have hj' : j < b.length := hj
    rw [reverse_take_succ hi', reverse_take_succ hj', lcsLen, if_neg h]
    simp only [dp]
    rw [if_neg h, ih1 (Nat.le_of_lt hi') hj, ih2 hi (Nat.le_of_lt hj')]
    rw [reverse_take_succ hi', reverse_take_succ hj']
    exact Nat.max_comm _ _

/-- The backtracking loop accumulates, in front of `acc`, a common
subsequence of the two prefixes whose length is exactly the DP entry it
started from. -/
theorem backtrack_spec (a b : List String) :
    ∀ i j acc, i ≤ a.length → j ≤ b.length →
      ∃ r : List String,
        backtrack a b i j acc = r ++ acc ∧
        r.Sublist (a.take i) ∧ r.Sublist (b.take j) ∧
        r.length = dp a b i j := by
  intro i j acc
  induction i, j, acc using backtrack.induct a b with
  | case1 i j acc h ih =>
    intro hi hj
    have hi' : i < a.length := hi
    have hj' : j < b.length := hj
    obtain ⟨r, heq, hsa, hsb, hlen⟩ :=
      ih (Nat.le_of_lt hi') (Nat.le_of_lt hj')
    refine ⟨r ++ [a.getD i ""], ?_, ?_, ?_, ?_⟩
    · simp only [backtrack]
      rw [if_pos h, heq, List.append_assoc]
      rfl
    · rw [List.take_succ]
      simp only [List.getElem?_eq_getElem hi']
      exact hsa.append (by simp [List.getD_eq_getElem?_getD,
        List.getElem?_eq_getElem hi'])
    · rw [List.take_succ]
      simp only [List.getElem?_eq_getElem hj']
      rw [h]
      exact hsb.append (by simp [List.getD_eq_getElem?_getD,
        List.getElem?_eq_getElem hj'])
    · simp only [dp]
      rw [if_pos h]
      simp [hlen]
  | case2 i j acc h hgt ih =>
    intro hi hj
    have hi' : i < a.length := hi
    obtain ⟨r, heq, hsa, hsb, hlen⟩ := ih (Nat.le_of_lt hi') hj
    refine ⟨r, ?_, ?_, hsb, ?_⟩
    · simp only [backtrack]
      rw [if_neg h, if_pos hgt, heq]
    · rw [List.take_succ]
      exact hsa.trans (List.sublist_append_left _ _)
    · simp only [dp]
      rw [if_neg h, hlen]
      exact (Nat.max_eq_left (Nat.le_of_lt hgt)).symm
  | case3 i j acc h hgt ih =>
    intro hi hj
    have hj' : j < b.length := hj
    obtain ⟨r, heq, hsa, hsb, hlen⟩ := ih hi (Nat.le_of_lt hj')
    refine ⟨r, ?_, hsa, ?_, ?_⟩
    · simp only [backtrack]
      rw [if_neg h, if_neg hgt, heq]
    · rw [List.take_succ]
      exact hsb.trans (List.sublist_append_left _ _)
    · simp only [dp]
      rw [if_neg h, hlen]
      exact (Nat.max_eq_right (Nat.le_of_not_lt hgt)).symm
  | case4 j acc =>
    intro _ _
    exact ⟨[], by simp [backtrack], by simp, by simp, by simp [dp]⟩
  | case5 i acc =>
    intro _ _
    exact ⟨[], by simp [backtrack], by simp, by simp, by simp [dp]⟩

/-- The recovered LCS is a subsequence of the original side. -/
theorem lcs_sublist_left (a b : List String) :
    (longestCommonSubsequence a b).Sublist a := by
  obtain ⟨r, heq, hsa, _, _⟩ :=
    backtrack_spec a b a.length b.length [] le_rfl le_rfl
  rw [longestCommonSubsequence, heq, List.append_nil]
  simpa using hsa

/-- The recovered LCS is a subsequence of the modified side. -/
theorem lcs_sublist_right (a b : List String) :
    (longestCommonSubsequence a b).Sublist b := by
  obtain ⟨r, heq, _, hsb, _⟩ :=
    backtrack_spec a b a.length b.length [] le_rfl le_rfl
  rw [longestCommonSubsequence, heq, List.append_nil]
  simpa using hsb

/-- The recovered LCS has the length recorded in `dp[m][n]`. -/
theorem lcs_length_eq_dp (a b : List String) :
    (longestCommonSubsequence a b).length = dp a b a.length b.length := by
  obtain ⟨r, heq, _, _, hlen⟩ :=
    backtrack_spec a b a.length b.length [] le_rfl le_rfl
  rw [longestCommonSubsequence, heq, List.append_nil, hlen]

/-- No common subsequence is longer than the recovered LCS: the source's
backtracked sequence really is a longest common subsequence. -/
theorem length_le_lcs_length (a b l : List String)
    (hx : l.Sublist a) (hy : l.Sublist b) :
    l.length ≤ (longestCommonSubsequence a b).length := by
  rw [lcs_length_eq_dp, dp_eq_lcsLen a b _ _ le_rfl le_rfl]
  simp only [List.take_length]
  have := length_le_lcsLen a.reverse b.reverse l.reverse
    (List.reverse_sublist.mpr hx) (List.reverse_sublist.mpr hy)
  simpa using this

/-- Counting invariant of the `computeDiff` alignment loop: as long as the
pending LCS suffix is a common subsequence of the two pending inputs, the
loop adds one `added`/`removed` tick per input line not consumed as part of
an LCS match. -/
theorem diffLoop_counts :
    ∀ (o m l : List String) (oi mi : Nat) (left right : List Row)
      (ac rc : Nat), l.Sublist o → l.Sublist m →
      (diffLoop o m l oi mi left right ac rc).addedCount +
        (diffLoop o m l oi mi left right ac rc).removedCount +
        2 * l.length = ac + rc + o.length + m.length := by
  intro o m l oi mi left right ac rc
  induction o, m, l, oi, mi, left, right, ac, rc using diffLoop.induct with
  | case1 oi mi left right ac rc ot lt mh mt ih =>
    intro ho hm
    have h := ih (tail_sublist_of_cons_sublist_cons ho)
      (tail_sublist_of_cons_sublist_cons hm)
    simp only [List.length_cons] at h
    simp only [diffLoop, if_true, List.length_cons]
    omega
  | case2 oi mi left right ac rc ot lh lt mh mt hne ih =>
    intro ho hm
    have h := ih ho (cons_sublist_of_ne hm fun h => hne h.symm)
    simp only [List.length_cons] at h
    simp only [diffLoop, hne, if_true, if_false, List.length_cons]
    omega
  | case3 oi mi left right ac rc ot lh lt =>
    intro _ hm
    exact absurd hm (by simp)
  | case4 oi mi left right ac rc oh ot m' lh lt hne ih =>
    intro ho hm
    have h := ih (cons_sublist_of_ne ho fun h => hne h.symm) hm
    cases m' <;>
      simp only [diffLoop, hne, if_true, if_false] <;>
      simp only [List.length_cons, List.length_nil] at h ⊢ <;>
      omega
  | case5 oi mi left right ac rc oh ot m' ih =>
    intro _ hm
    have h := ih (List.nil_sublist _) hm
    cases m' <;>
      simp only [diffLoop] <;>
      simp only [List.length_cons, List.length_nil] at h ⊢ <;>
      omega
  | case6 oi mi left right ac rc mh mt l' ih =>
    intro ho hm
    have hl : l' = [] := List.sublist_nil.mp ho
    subst hl
    have h := ih (List.nil_sublist _) (List.nil_sublist _)
    simp only [List.length_cons] at h
    simp only [diffLoop, List.length_cons]
    omega
  | case7 l oi mi left right ac rc =>
    intro ho _
    have hl : l = [] := List.sublist_nil.mp ho
    subst hl
    simp [diffLoop]

/-- Reconstruction invariant of the alignment loop: the `same`/`removed`
lines of the left column spell out the pending original input, the
`same`/`added` lines of the right column spell out the pending modified
input, and the two columns stay the same length. -/
theorem diffLoop_lines :
    ∀ (o m l : List String) (oi mi : Nat) (left right : List Row)
      (ac rc : Nat), l.Sublist o → l.Sublist m →
      leftLines (diffLoop o m l oi mi left right ac rc).left
          = leftLines left.reverse ++ o ∧
      rightLines (diffLoop o m l oi mi left right ac rc).right
          = rightLines right.reverse ++ m ∧
      (left.length = right.length →
        (diffLoop o m l oi mi left right ac rc).left.length
          = (diffLoop o m l oi mi left right ac rc).right.length) := by
  intro o m l oi mi left right ac rc
  induction o, m, l, oi, mi, left, right, ac, rc using diffLoop.induct with
  | case1 oi mi left right ac rc ot lt mh mt ih =>
    intro ho hm
    obtain ⟨ihl, ihr, ihn⟩ := ih (tail_sublist_of_cons_sublist_cons ho)
      (tail_sublist_of_cons_sublist_cons hm)
    simp only [diffLoop, if_true]
    refine ⟨?_, ?_, fun h => ihn (by simp [h])⟩
    · rw [ihl]
      simp [leftLines]
    · rw [ihr]
      simp [rightLines]
  | case2 oi mi left right ac rc ot lh lt mh mt hne ih =>
    intro ho hm
    obtain ⟨ihl, ihr, ihn⟩ :=
      ih ho (cons_sublist_of_ne hm fun h => hne h.symm)
    simp only [diffLoop, hne, if_true, if_false]
    refine ⟨?_, ?_, fun h => ihn (by simp [h])⟩
    · rw [ihl]
      simp [leftLines]
    · rw [ihr]
      simp [rightLines]
  | case3 oi mi left right ac rc ot lh lt =>
    intro _ hm
    exact absurd hm (by simp)
  | case4 oi mi left right ac rc oh ot m' lh lt hne ih =>
    intro ho hm
    obtain ⟨ihl, ihr, ihn⟩ :=
      ih (cons_sublist_of_ne ho fun h => hne h.symm) hm
    cases m' <;>
      · simp only [diffLoop, hne, if_true, if_false]
        refine ⟨?_, ?_, fun h => ihn (by simp [h])⟩
        · rw [ihl]
          simp [leftLines]
        · rw [ihr]
          simp [rightLines]
  | case5 oi mi left right ac rc oh ot m' ih =>
    intro _ hm
    obtain ⟨ihl, ihr, ihn⟩ := ih (List.nil_sublist _) hm
    cases m' <;>
      · simp only [diffLoop]
        refine ⟨?_, ?_, fun h => ihn (by simp [h])⟩
        · rw [ihl]
          simp [leftLines]
        · rw [ihr]
          simp [rightLines]
  | case6 oi mi left right ac rc mh mt l' ih =>
    intro ho hm
    have hl : l' = [] := List.sublist_nil.mp ho
    subst hl
    obtain ⟨ihl, ihr, ihn⟩ := ih (List.nil_sublist _) (List.nil_sublist _)
    simp only [diffLoop]
    refine ⟨?_, ?_, fun h => ihn (by simp [h])⟩
    · rw [ihl]
      simp [leftLines]
    · rw [ihr]
      simp [rightLines]
  | case7 l oi mi left right ac rc =>
    intro ho _
    have hl : l = [] := List.sublist_nil.mp ho
    subst hl
    simp [diffLoop]

/-! ### Tie-break reference backtrackings

Two refinement yardsticks for the tie-break behaviour of the source's
backtracking loop, written from the spec's description of the rule rather
than from the source: `backtrackUp` breaks a tie between the up neighbor
`dp[i-1][j]` and the left neighbor `dp[i][j-1]` by moving up (attributing
the divergence to a removal), `backtrackLeft` breaks it by moving left
(attributing the divergence to an addition). -/

def backtrackUp (a b : List String) : Nat → Nat → List String → List String
  | i + 1, j + 1, acc =>
    if a.getD i "" = b.getD j "" then
      backtrackUp a b i j (a.getD i "" :: acc)
    else if dp a b i (j + 1) ≥ dp a b (i + 1) j then
      backtrackUp a b i (j + 1) acc
    else
      backtrackUp a b (i + 1) j acc
  | 0, _, acc => acc
  | _ + 1, 0, acc => acc
  termination_by i j _ => (i, j)

/-- The LCS recovered by an up-preferring backtracking (spec tie-break). -/
def lcsUpRef (a b : List String) : List String :=
  backtrackUp a b a.length b.length []

def backtrackLeft (a b : List String) : Nat → Nat → List String → List String
  | i + 1, j + 1, acc =>
    if a.getD i "" = b.getD j "" then
      backtrackLeft a b i j (a.getD i "" :: acc)
    else if dp a b (i + 1) j ≥ dp a b i (j + 1) then
      backtrackLeft a b (i + 1) j acc
    else
      backtrackLeft a b i (j + 1) acc
  | 0, _, acc => acc
  | _ + 1, 0, acc => acc
  termination_by i j _ => (i, j)

/-- The LCS recovered by a left-preferring backtracking. -/
def lcsLeftRef (a b : List String) : List String :=
  backtrackLeft a b a.length b.length []

theorem backtrack_eq_backtrackLeft (a b : List String) :
    ∀ i j acc, backtrack a b i j acc = backtrackLeft a b i j acc := by
  intro i j acc
  induction i, j, acc using backtrack.induct a b with
  | case1 i j acc h ih =>
    simp only [backtrack, backtrackLeft]
    rw [if_pos h, if_pos h, ih]
  | case2 i j acc h hgt ih =>
    simp only [backtrack, backtrackLeft]
    rw [if_neg h, if_neg h, if_pos hgt,
      if_neg (by omega : ¬dp a b (i + 1) j ≥ dp a b i (j + 1)), ih]
  | case3 i j acc h hgt ih =>
    simp only [backtrack, backtrackLeft]
    rw [if_neg h, if_neg h, if_neg hgt,
      if_pos (by omega : dp a b (i + 1) j ≥ dp a b i (j + 1)), ih]
  | case4 j acc => simp only [backtrack, backtrackLeft]
  | case5 i acc => simp only [backtrack, backtrackLeft]

/-! ## Claim theorems for the diff engine -/

/-- C1: for every pair of line sequences, the diff computation's
`addedCount + removedCount` equals `|A| + |B| - 2·|LCS(A,B)|`, where the
witnessing `L` really is a longest common subsequence of `A` and `B` under
whole-line equality. -/
theorem C1_added_removed_counts (A B : List String) :
    ∃ L : List String,
      L.Sublist A ∧ L.Sublist B ∧
      (∀ L' : List String, L'.Sublist A → L'.Sublist B →
        L'.length ≤ L.length) ∧
      (computeDiff A B).addedCount + (computeDiff A B).removedCount
        = A.length + B.length - 2 * L.length := by
  refine ⟨longestCommonSubsequence A B, lcs_sublist_left A B,
    lcs_sublist_right A B,
    fun L' h1 h2 => length_le_lcs_length A B L' h1 h2, ?_⟩
  have h := diffLoop_counts A B (longestCommonSubsequence A B) 0 0 [] [] 0 0
    (lcs_sublist_left A B) (lcs_sublist_right A B)
  simp only [computeDiff]
  omega

/-- C2: the right column's `same`/`added` rows spell out `B`, the left
column's `same`/`removed` rows spell out `A`, and the two columns have equal
length. -/
theorem C2_alignment_reconstructs (A B : List String) :
    leftLines (computeDiff A B).left = A ∧
    rightLines (computeDiff A B).right = B ∧
    (computeDiff A B).left.length = (computeDiff A B).right.length := by
  obtain ⟨hl, hr, hn⟩ := diffLoop_lines A B (longestCommonSubsequence A B)
    0 0 [] [] 0 0 (lcs_sublist_left A B) (lcs_sublist_right A B)
  refine ⟨?_, ?_, ?_⟩
  · simpa [computeDiff, leftLines] using hl
  · simpa [computeDiff, rightLines] using hr
  · simpa [computeDiff] using hn rfl

/-- C3 counterexample: on `A = ["a","b"]`, `B = ["b","a"]` the backtracking
of the source recovers `["b"]`, while a backtracking that prefers the up
direction on ties recovers `["a"]`: the implementation does not move up on
ties. -/
theorem C3_counterexample_tie_not_up :
    longestCommonSubsequence ["a", "b"] ["b", "a"] = ["b"] ∧
    lcsUpRef ["a", "b"] ["b", "a"] = ["a"] ∧
    longestCommonSubsequence ["a", "b"] ["b", "a"]
      ≠ lcsUpRef ["a", "b"] ["b", "a"] := by
  refine ⟨?_, ?_, ?_⟩
  · simp [longestCommonSubsequence, backtrack, dp]
  · simp [lcsUpRef, backtrackUp, dp]
  · simp [longestCommonSubsequence, lcsUpRef, backtrack, backtrackUp, dp]

/-- C3 (amended): on a tie between the up and the left neighbor the
implementation moves left (`j` decreases), attributing the divergence to an
addition; for every input pair the recovered LCS equals the one produced by
a reference backtracking that prefers the left direction on ties. -/
theorem C3_tie_break_prefers_left (a b : List String) :
    longestCommonSubsequence a b = lcsLeftRef a b := by
  simp only [longestCommonSubsequence, lcsLeftRef]
  exact backtrack_eq_backtrackLeft a b a.length b.length []

/-! ## Artifact model (src/types.ts)

The dynamic `data` payload of an artifact is embedded as an inductive JSON
value.  `path` mirrors the dynamic `artifact.path` field the gateway's
`open` action reads (`message.artifact?.path`), which is absent from the
typed interface but present on messages sent for `open`. -/

inductive Json where
  | null
  | bool (b : Bool)
  | num (n : Int)
  | str (s : String)
  | arr (items : List Json)
  | obj (fields : List (String × Json))

structure Artifact where
  type : String
  title : Option String
  data : Json
  path : Option String

/-! ## String helpers (src/renderers/base.ts and JS builtins) -/

/-- `escapeHtml` from src/renderers/base.ts: replaces ampersand, angle
brackets and both quote characters by HTML entities. -/
def escapeHtml (text : String) : String :=
  String.mk (text.data.foldr (fun c acc =>
    (if c = Char.ofNat 38 then "&amp;".data
     else if c = Char.ofNat 60 then "&lt;".data
     else if c = Char.ofNat 62 then "&gt;".data
     else if c = Char.ofNat 34 then "&quot;".data
     else if c = Char.ofNat 39 then "&#039;".data
     else [c]) ++ acc) [])

/-- JSON string escaping, part of the model of the `JSON.stringify` builtin:
backslash, double quote and newline are escaped. -/
def jsonEscape (s : String) : String :=
  String.mk (s.data.foldr (fun c acc =>
    (if c = Char.ofNat 92 then [Char.ofNat 92, Char.ofNat 92]
     else if c = Char.ofNat 34 then [Char.ofNat 92, Char.ofNat 34]
     else if c = Char.ofNat 10 then [Char.ofNat 92, Char.ofNat 110]
     else [c]) ++ acc) [])

/-- `n` spaces. -/
def indentStr (n : Nat) : String :=
  String.mk (List.replicate n (Char.ofNat 32))

/-- Indent every item by `ind` spaces and join with `",\n"`. -/
def joinItems (ind : Nat) (items : List String) : String :=
  String.intercalate ",\n" (items.map fun s => indentStr ind ++ s)

mutual

/-- Models the JavaScript builtin `JSON.stringify(value, null, 2)` used by
`PluginManager.renderFallback`: pretty-printing with two-space indentation,
`ind` being the indentation of the enclosing value. -/
def stringifyJson (ind : Nat) : Json → String
  | .null => "null"
  | .bool true => "true"
  | .bool false => "false"
  | .num n => toString n
  | .str s => "\"" ++ jsonEscape s ++ "\""
  | .arr [] => "[]"
  | .arr (x :: xs) =>
    "[\n" ++ joinItems (ind + 2) (stringifyItems (ind + 2) (x :: xs))
      ++ "\n" ++ indentStr ind ++ "]"
  | .obj [] => "\x7b\x7d"
  | .obj (f :: fs) =>
    "\x7b\n" ++ joinItems (ind + 2) (stringifyFields (ind + 2) (f :: fs))
      ++ "\n" ++ indentStr ind ++ "\x7d"

def stringifyItems (ind : Nat) : List Json → List String
  | [] => []
  | x :: xs => stringifyJson ind x :: stringifyItems ind xs

def stringifyFields (ind : Nat) : List (String × Json) → List String
  | [] => []
  | (k, v) :: fs =>
    ("\"" ++ jsonEscape k ++ "\": " ++ stringifyJson ind v)
      :: stringifyFields ind fs

end

/-! ## Map model

JS `Map` as an association list preserving insertion order: `set` on an
existing key updates the value in place, `set` on a fresh key appends,
`keys()` is first components in order. -/

def mapGet {α : Type} : List (String × α) → String → Option α
  | [], _ => none
  | (k', v) :: rest, k => if k' = k then some v else mapGet rest k

def mapSet {α : Type} : List (String × α) → String → α → List (String × α)
  | [], k, v => [(k, v)]
  | (k', v') :: rest, k, v =>
    if k' = k then (k', v) :: rest else (k', v') :: mapSet rest k v

def mapDelete {α : Type} (m : List (String × α)) (k : String) :
    List (String × α) :=
  m.filter fun e => e.1 ≠ k

/-! ## Plugin manager (src/pluginManager.ts)

A registered renderer's `render` may throw; that is modelled by returning
`Except String String` (`.error` = thrown exception with its message). -/

structure ArtifactRenderer where
  type : String
  render : Artifact → Except String String

structure PluginManager where
  renderers : List (String × ArtifactRenderer)

def PluginManager.register (pm : PluginManager) (renderer : ArtifactRenderer) :
    PluginManager :=
  ⟨mapSet pm.renderers renderer.type renderer⟩

def PluginManager.unregister (pm : PluginManager) (type : String) :
    PluginManager :=
  ⟨mapDelete pm.renderers type⟩

def PluginManager.getRenderer (pm : PluginManager) (type : String) :
    Option ArtifactRenderer :=
  mapGet pm.renderers type

def PluginManager.hasRenderer (pm : PluginManager) (type : String) : Bool :=
  (mapGet pm.renderers type).isSome

/-- `PluginManager.renderFallback` (src/pluginManager.ts lines 179-186):
note that neither `artifact.type` nor the serialized payload passes through
`escapeHtml`. -/
def PluginManager.renderFallback (artifact : Artifact) : String :=
  "\n            <div class=\"fallback\">\n                <h3>Unknown artifact type: "
    ++ artifact.type
    ++ "</h3>\n                <pre>"
    ++ stringifyJson 0 artifact.data
    ++ "</pre>\n            </div>\n        "

/-- `PluginManager.render` (src/pluginManager.ts lines 168-174). -/
def PluginManager.render (pm : PluginManager) (artifact : Artifact) :
    Except String String :=
  match mapGet pm.renderers artifact.type with
  | none => .ok (PluginManager.renderFallback artifact)
  | some renderer => renderer.render artifact

def PluginManager.listTypes (pm : PluginManager) : List String :=
  pm.renderers.map Prod.fst

/-- The fallback as the spec requires it (refinement yardstick, written from
the spec's words, not from the source): all artifact data is HTML-escaped
before being embedded in the markup. -/
def renderFallbackEscaped (artifact : Artifact) : String :=
  "\n            <div class=\"fallback\">\n                <h3>Unknown artifact type: "
    ++ escapeHtml artifact.type
    ++ "</h3>\n                <pre>"
    ++ escapeHtml (stringifyJson 0 artifact.data)
    ++ "</pre>\n            </div>\n        "

/-- C4 counterexample: for the unregistered type `"wat"` with payload the
JSON string `"<b>"`, `render` does return the fallback markup, but that
markup embeds the serialized payload raw: it is not the escaped markup the
spec demands, and the raw text `<b>` appears verbatim inside the returned
markup (markup injection). -/
theorem C4_counterexample_fallback_unescaped :
    PluginManager.render ⟨[]⟩ ⟨"wat", none, Json.str "<b>", none⟩
        = .ok (PluginManager.renderFallback ⟨"wat", none, Json.str "<b>", none⟩) ∧
    PluginManager.renderFallback ⟨"wat", none, Json.str "<b>", none⟩
        ≠ renderFallbackEscaped ⟨"wat", none, Json.str "<b>", none⟩ ∧
    PluginManager.renderFallback ⟨"wat", none, Json.str "<b>", none⟩
      = "\n            <div class=\"fallback\">\n                <h3>Unknown artifact type: wat</h3>\n                <pre>\"<b>\"</pre>\n            </div>\n        " := by
  refine ⟨rfl, ?_, rfl⟩
  decide

/-- C4 (amended): for every artifact whose type tag has no registered
renderer, `render` invokes the fallback renderer, which never throws (it
always returns `.ok`), visibly labels the output as an unknown type and
includes the `JSON.stringify`-serialized raw payload — but it does not
HTML-escape the artifact data before embedding it. -/
theorem C4_fallback_total_labelled (pm : PluginManager) (artifact : Artifact)
    (h : mapGet pm.renderers artifact.type = none) :
    PluginManager.render pm artifact
      = .ok ("\n            <div class=\"fallback\">\n                <h3>Unknown artifact type: "
          ++ artifact.type
          ++ "</h3>\n                <pre>"
          ++ stringifyJson 0 artifact.data
          ++ "</pre>\n            </div>\n        ") := by
  simp [PluginManager.render, h, PluginManager.renderFallback]

/-- Witness for C4 (amended) at the empty registry and a concrete artifact. -/
theorem C4_fallback_total_labelled_witness :
    mapGet (PluginManager.mk []).renderers "wat" = none ∧
    PluginManager.render ⟨[]⟩ ⟨"wat", none, Json.null, none⟩
      = .ok ("\n            <div class=\"fallback\">\n                <h3>Unknown artifact type: "
          ++ "wat"
          ++ "</h3>\n                <pre>"
          ++ stringifyJson 0 Json.null
          ++ "</pre>\n            </div>\n        ") :=
  ⟨rfl, C4_fallback_total_labelled ⟨[]⟩ ⟨"wat", none, Json.null, none⟩ rfl⟩

/-! ## Session store (src/sessionManager.ts)

`SessionManager` state is the two mutable fields of the class:
`sessionId` (generated once at construction from date, time and a random
suffix) and the cached `sessionPath`.  The host runtime is passed
explicitly: `workspaceRoot` models `vscode.workspace.workspaceFolders[0]`
(`none` when no workspace folder is resolvable), `freshTime`/`freshRand`
model the `Date`/`Math.random` parts of `generateFilename`.  Directory
creation (`fs.mkdirSync`) and file writes (`fs.writeFileSync`) are external
effects that no claim observes and are not tracked; deletion effects of
`cleanupOldSessions` are tracked through an explicit directory listing. -/

structure SessionManager where
  sessionId : String
  sessionPath : Option String
  deriving DecidableEq, Repr

structure HostEnv where
  workspaceRoot : Option String
  freshPanelId : String
  freshTime : String
  freshRand : String
  deriving DecidableEq, Repr

/-- `SessionManager.getSessionPath` (source lines 36-57). -/
def SessionManager.getSessionPath (sm : SessionManager) (env : HostEnv) :
    Option String × SessionManager :=
  match sm.sessionPath with
  | some p => (some p, sm)
  | none =>
    match env.workspaceRoot with
    | none => (none, sm)
    | some root =>
      let sessionDir := root ++ "/tmp/prettycli/" ++ sm.sessionId
      (some sessionDir, { sm with sessionPath := some sessionDir })

/-- `SessionManager.generateFilename` (source lines 62-71):
`hhmmss_mmm_<type>_<rand>.<extension>`, the time and random parts supplied
by the environment. -/
def generateFilename (env : HostEnv) (type extension : String) : String :=
  env.freshTime ++ "_" ++ type ++ "_" ++ env.freshRand ++ "." ++ extension

/-- `SessionManager.getExtension` (source lines 111-125). -/
def getExtension (type : String) : String :=
  if type = "chart" then "html"
  else if type = "table" then "html"
  else if type = "file" then "txt"
  else if type = "diff" then "html"
  else if type = "web" then "html"
  else if type = "markdown" then "md"
  else if type = "json" then "json"
  else if type = "image" then "png"
  else if type = "csv" then "csv"
  else if type = "xlsx" then "xlsx"
  else "txt"

/-- `SessionManager.saveArtifact` (source lines 76-89).  The written file
content is an external effect; the call returns the absolute path, or `null`
when no session path is available. -/
def SessionManager.saveArtifact (sm : SessionManager) (env : HostEnv)
    (artifact : Artifact) (content : String) :
    Option String × SessionManager :=
  match sm.getSessionPath env with
  | (none, sm') => (none, sm')
  | (some sessionPath, sm') =>
    let extension := getExtension artifact.type
    let filename := generateFilename env artifact.type extension
    (some (sessionPath ++ "/" ++ filename), sm')

/-- `SessionManager.saveBinaryArtifact` (source lines 94-106); the binary
payload itself is an external effect and does not influence the result. -/
def SessionManager.saveBinaryArtifact (sm : SessionManager) (env : HostEnv)
    (artifact : Artifact) (extension : String) :
    Option String × SessionManager :=
  match sm.getSessionPath env with
  | (none, sm') => (none, sm')
  | (some sessionPath, sm') =>
    let filename := generateFilename env artifact.type extension
    (some (sessionPath ++ "/" ++ filename), sm')

/-! ### Directory listing and retention -/

/-- One entry under `<workspaceRoot>/tmp/prettycli` as `fs.readdirSync`
reports it: name, whether it is a directory, and its own entry count. -/
structure FsEntry where
  name : String
  isDir : Bool
  fileCount : Nat
  deriving DecidableEq, Repr

structure SessionInfo where
  id : String
  path : String
  files : Nat
  deriving DecidableEq, Repr

/-- Lexicographic comparison of char lists by code point: the order the JS
builtin `Array.prototype.sort()` applies to strings under its default
comparator. -/
def charListLe : List Char → List Char → Bool
  | [], _ => true
  | _ :: _, [] => false
  | c :: cs, d :: ds =>
    if c.toNat < d.toNat then true
    else if d.toNat < c.toNat then false
    else charListLe cs ds

def strLe (a b : String) : Bool :=
  charListLe a.data b.data

/-- Models the JS builtin `Array.prototype.sort()` under its default
comparator (lexicographic string order, ascending): insertion sort. -/
def insertSorted (s : String) : List String → List String
  | [] => [s]
  | x :: xs => if strLe s x then s :: x :: xs else x :: insertSorted s xs

def sortStrings : List String → List String
  | [] => []
  | x :: xs => insertSorted x (sortStrings xs)

def fileCountOf (fs : List FsEntry) (id : String) : Nat :=
  match fs.find? (fun e => e.name = id) with
  | some e => e.fileCount
  | none => 0

/-- `SessionManager.listSessions` (source lines 145-165): directory names
under the tmp dir, sorted descending (newest first, names being
time-prefixed), with path and file count. -/
def listSessions (env : HostEnv) (fs : List FsEntry) : List SessionInfo :=
  match env.workspaceRoot with
  | none => []
  | some root =>
    let tmpDir := root ++ "/tmp/prettycli"
    let names := (fs.filter fun e => e.isDir).map fun e => e.name
    ((sortStrings names).reverse).map fun id =>
      { id := id, path := tmpDir ++ "/" ++ id, files := fileCountOf fs id }

/-- `SessionManager.cleanupOldSessions` (source lines 170-185).
`fs.rmSync(session.path, recursive)` is modelled by removing the entry with
that session's name from the directory listing. -/
def SessionManager.cleanupOldSessions (sm : SessionManager) (env : HostEnv)
    (fs : List FsEntry) (keepCount : Nat) : Nat × List FsEntry :=
  let sessions := listSessions env fs
  if sessions.length > keepCount then
    let toDelete := sessions.drop keepCount
    toDelete.foldl
      (fun acc session =>
        if session.id ≠ sm.sessionId then
          (acc.1 + 1, acc.2.filter fun e => e.name ≠ session.id)
        else
          acc)
      (0, fs)
  else
    (0, fs)

/-! ## Panel manager (src/panelManager.ts) and the webview host

`getBaseHtml` (src/renderers/base.ts lines 4-181) wraps rendered content in
a full HTML document whose inline CSS is elided here: no claim observes the
wrapper text, only that the title is escaped and defaults to `"Artifact"`
and that the content is embedded. -/

def getBaseHtml (content : String) (title : Option String) : String :=
  "<!DOCTYPE html><html><head><title>"
    ++ escapeHtml (title.getD "Artifact")
    ++ "</title></head><body>" ++ content ++ "</body></html>"

/-- A live webview panel as the manager sees it: its current title and
webview html (`createWebviewPanel` starts with empty html). -/
structure Panel where
  title : String
  html : String
  deriving DecidableEq, Repr

/-- The module-level mutable state of the extension: the plugin-manager and
session-manager singletons plus the two maps owned by `PanelManager`. -/
structure World where
  plugins : PluginManager
  session : SessionManager
  panels : List (String × Panel)
  panelFiles : List (String × String)

/-- `PanelManager.show` (source lines 85-121).  `panelId || generateId()`
follows JS truthiness: an omitted or empty id falls back to
`panel-<Date.now()>-<random>` (supplied by the environment as
`freshPanelId`); likewise `artifact.title || type + " artifact"`.  A thrown
renderer exception (`.error`) aborts after the panel has been created, as in
the source, leaving title and html of a reused panel untouched. -/
def World.show (w : World) (env : HostEnv) (artifact : Artifact)
    (panelId : Option String) :
    Except String (String × Option String) × World :=
  let id := match panelId with
    | some p => if p = "" then "panel-" ++ env.freshPanelId else p
    | none => "panel-" ++ env.freshPanelId
  let title := match artifact.title with
    | some t => if t = "" then artifact.type ++ " artifact" else t
    | none => artifact.type ++ " artifact"
  let panels1 := match mapGet w.panels id with
    | some _ => w.panels
    | none => mapSet w.panels id ⟨title, ""⟩
  match PluginManager.render w.plugins artifact with
  | .error e => (.error e, { w with panels := panels1 })
  | .ok content =>
    let html := getBaseHtml content artifact.title
    let panels2 := mapSet panels1 id ⟨title, html⟩
    let (filePath, session1) := w.session.saveArtifact env artifact html
    let panelFiles1 := match filePath with
      | some fp => mapSet w.panelFiles id fp
      | none => w.panelFiles
    (.ok (id, filePath),
      { w with panels := panels2, panelFiles := panelFiles1,
               session := session1 })

/-- `PanelManager.update` (source lines 126-143). -/
def World.update (w : World) (env : HostEnv) (panelId : String)
    (artifact : Artifact) :
    Except String (Bool × Option String) × World :=
  match mapGet w.panels panelId with
  | none => (.ok (false, none), w)
  | some panel =>
    match PluginManager.render w.plugins artifact with
    | .error e => (.error e, w)
    | .ok content =>
      let html := getBaseHtml content artifact.title
      -- panel.title = artifact.title || panel.title
      let title := match artifact.title with
        | some t => if t = "" then panel.title else t
        | none => panel.title
      let panels1 := mapSet w.panels panelId ⟨title, html⟩
      let (filePath, session1) := w.session.saveArtifact env artifact html
      let panelFiles1 := match filePath with
        | some fp => mapSet w.panelFiles panelId fp
        | none => w.panelFiles
      (.ok (true, filePath),
        { w with panels := panels1, panelFiles := panelFiles1,
                 session := session1 })

/-- `PanelManager.getFilePath` (source lines 148-150); `get(..) || null`
turns an absent or empty entry into `null`. -/
def World.getFilePath (w : World) (panelId : String) : Option String :=
  match mapGet w.panelFiles panelId with
  | some p => if p = "" then none else some p
  | none => none

/-- `PanelManager.close` (source lines 155-164): `panel.dispose()`
synchronously fires the `onDidDispose` callback registered at creation,
which removes the entry from both maps; `close` then deletes from `panels`
again (a no-op). -/
def World.close (w : World) (panelId : String) : Bool × World :=
  match mapGet w.panels panelId with
  | none => (false, w)
  | some _ =>
    (true, { w with panels := mapDelete w.panels panelId,
                    panelFiles := mapDelete w.panelFiles panelId })

/-- `PanelManager.list` (source lines 169-171). -/
def World.list (w : World) : List String :=
  w.panels.map Prod.fst

/-! ## Protocol gateway (src/apiServer.ts) -/

inductive ResponseData where
  | renderResult (panelId : String) (filePath : Option String)
  | updateResult (filePath : Option String)
  | panels (ids : List String)

structure ApiResponse where
  id : String
  success : Bool
  error : Option String
  data : Option ResponseData

structure ApiMessage where
  id : String
  action : String
  artifact : Option Artifact
  panelId : Option String

/-- `ApiServer.processMessage` (source lines 103-186).  Field presence tests
follow JS truthiness (`!message.artifact` is only `none` for an object,
`!message.panelId` is `none` or the empty string); a thrown exception
from `show`/`update` propagates as `.error`, carrying the state as already
mutated.  `open`'s `vscode.env.openExternal` is an external effect. -/
def processMessage (w : World) (env : HostEnv) (message : ApiMessage) :
    Except String ApiResponse × World :=
  match message.action with
  | "render" =>
    match message.artifact with
    | none =>
      (.ok { id := message.id, success := false,
             error := some "Missing artifact", data := none }, w)
    | some artifact =>
      match World.show w env artifact message.panelId with
      | (.error e, w1) => (.error e, w1)
      | (.ok (panelId, filePath), w1) =>
        (.ok { id := message.id, success := true, error := none,
               data := some (.renderResult panelId filePath) }, w1)
  | "update" =>
    match message.panelId, message.artifact with
    | some p, some artifact =>
      if p = "" then
        (.ok { id := message.id, success := false,
               error := some "Missing panelId or artifact", data := none }, w)
      else
        match World.update w env p artifact with
        | (.error e, w1) => (.error e, w1)
        | (.ok (true, filePath), w1) =>
          (.ok { id := message.id, success := true, error := none,
                 data := some (.updateResult filePath) }, w1)
        | (.ok (false, _), w1) =>
          (.ok { id := message.id, success := false,
                 error := some "Panel not found", data := none }, w1)
    | _, _ =>
      (.ok { id := message.id, success := false,
             error := some "Missing panelId or artifact", data := none }, w)
  | "close" =>
    match message.panelId with
    | some p =>
      if p = "" then
        (.ok { id := message.id, success := false,
               error := some "Missing panelId", data := none }, w)
      else
        match World.close w p with
        | (closed, w1) =>
          (.ok { id := message.id, success := closed,
                 error := if closed then none else some "Panel not found",
                 data := none }, w1)
    | none =>
      (.ok { id := message.id, success := false,
             error := some "Missing panelId", data := none }, w)
  | "list" =>
    (.ok { id := message.id, success := true, error := none,
           data := some (.panels (World.list w)) }, w)
  | "open" =>
    match message.artifact with
    | none =>
      (.ok { id := message.id, success := false,
             error := some "Missing path", data := none }, w)
    | some artifact =>
      match artifact.path with
      | some p =>
        if p = "" then
          (.ok { id := message.id, success := false,
                 error := some "Missing path", data := none }, w)
        else
          (.ok { id := message.id, success := true, error := none,
                 data := none }, w)
      | none =>
        (.ok { id := message.id, success := false,
               error := some "Missing path", data := none }, w)
  | "ping" =>
    (.ok { id := message.id, success := true, error := none,
           data := none }, w)
  | other =>
    (.ok { id := message.id, success := false,
           error := some ("Unknown action: " ++ other), data := none }, w)

/-- `ApiServer.handleMessage` (source lines 72-98).  The incoming text frame
is represented by the result of `JSON.parse`: `none` when parsing throws,
`some message` otherwise.  The result is the single `sendResponse` the
handler performs; the handler is total — every exception raised during
dispatch becomes a failure response carrying the exception's message. -/
def handleMessage (w : World) (env : HostEnv) (parsed : Option ApiMessage) :
    ApiResponse × World :=
  match parsed with
  | none =>
    ({ id := "unknown", success := false,
       error := some "Invalid JSON", data := none }, w)
  | some message =>
    match processMessage w env message with
    | (.ok response, w1) => (response, w1)
    | (.error e, w1) =>
      ({ id := message.id, success := false, error := some e,
         data := none }, w1)

/-! ## Claim theorems for the gateway -/

/-- C5: the gateway's message handling produces exactly the spec's four
responses: ping succeeds under the same id; unparseable input yields the
`"unknown"` sentinel id with `"Invalid JSON"`; `render` without an artifact
yields `"Missing artifact"`; an unknown action is named in the error. -/
theorem C5_gateway_end_to_end (w : World) (env : HostEnv) :
    handleMessage w env (some ⟨"1", "ping", none, none⟩)
      = ({ id := "1", success := true, error := none, data := none }, w) ∧
    handleMessage w env none
      = ({ id := "unknown", success := false, error := some "Invalid JSON",
           data := none }, w) ∧
    handleMessage w env (some ⟨"2", "render", none, none⟩)
      = ({ id := "2", success := false, error := some "Missing artifact",
           data := none }, w) ∧
    handleMessage w env (some ⟨"3", "foo", none, none⟩)
      = ({ id := "3", success := false, error := some "Unknown action: foo",
           data := none }, w) :=
  ⟨rfl, rfl, rfl, rfl⟩

/-- C6: every exception raised while dispatching a well-formed message
(in this model, any `.error` escaping `processMessage`, in particular one
thrown by a registered renderer invoked transitively through
`PanelManager.show` → `PluginManager.render`) is converted by
`handleMessage` into a response with the same correlation id,
`success := false` and the exception's description; `handleMessage` itself
is a total function, so the channel never sees the exception. -/
theorem C6_exception_caught (w : World) (env : HostEnv)
    (message : ApiMessage) (e : String) (w1 : World)
    (h : processMessage w env message = (.error e, w1)) :
    handleMessage w env (some message)
      = ({ id := message.id, success := false, error := some e,
           data := none }, w1) := by
  simp [handleMessage, h]

/-- Witness for C6: a registered `chart` renderer that throws `"boom"`;
the render request gets a `success := false` response carrying `"boom"`
under the request's id (with the panel already created, as in the source). -/
theorem C6_exception_caught_witness :
    processMessage
        ⟨⟨[("chart", ⟨"chart", fun _ => Except.error "boom"⟩)]⟩, ⟨"s", none⟩,
          [], []⟩
        ⟨none, "t-r", "tt", "rr"⟩
        ⟨"9", "render", some ⟨"chart", none, Json.null, none⟩, none⟩
      = (.error "boom",
         ⟨⟨[("chart", ⟨"chart", fun _ => Except.error "boom"⟩)]⟩, ⟨"s", none⟩,
          [("panel-t-r", ⟨"chart artifact", ""⟩)], []⟩) ∧
    handleMessage
        ⟨⟨[("chart", ⟨"chart", fun _ => Except.error "boom"⟩)]⟩, ⟨"s", none⟩,
          [], []⟩
        ⟨none, "t-r", "tt", "rr"⟩
        (some ⟨"9", "render", some ⟨"chart", none, Json.null, none⟩, none⟩)
      = ({ id := "9", success := false, error := some "boom", data := none },
         ⟨⟨[("chart", ⟨"chart", fun _ => Except.error "boom"⟩)]⟩, ⟨"s", none⟩,
          [("panel-t-r", ⟨"chart artifact", ""⟩)], []⟩) :=
  ⟨rfl,
   C6_exception_caught
     ⟨⟨[("chart", ⟨"chart", fun _ => Except.error "boom"⟩)]⟩, ⟨"s", none⟩,
       [], []⟩
     ⟨none, "t-r", "tt", "rr"⟩
     ⟨"9", "render", some ⟨"chart", none, Json.null, none⟩, none⟩
     "boom"
     ⟨⟨[("chart", ⟨"chart", fun _ => Except.error "boom"⟩)]⟩, ⟨"s", none⟩,
       [("panel-t-r", ⟨"chart artifact", ""⟩)], []⟩
     rfl⟩

/-! ## Claim theorems for the session store -/

/-- C7 counterexample: five session directories exist, the active session
(`"a_active"`) sorting oldest; `cleanupOldSessions 2` deletes only the two
non-active sessions outside the retained window and returns 2, not 3. -/
theorem C7_counterexample_active_in_tail :
    (listSessions ⟨some "/w", "p", "t", "r"⟩
        [⟨"b", true, 0⟩, ⟨"c", true, 1⟩, ⟨"d", true, 2⟩, ⟨"e", true, 3⟩,
         ⟨"a_active", true, 4⟩]).length = 5 ∧
    (SessionManager.cleanupOldSessions ⟨"a_active", none⟩
        ⟨some "/w", "p", "t", "r"⟩
        [⟨"b", true, 0⟩, ⟨"c", true, 1⟩, ⟨"d", true, 2⟩, ⟨"e", true, 3⟩,
         ⟨"a_active", true, 4⟩] 2).1 = 2 := by
  refine ⟨by decide, by decide⟩

/-- The deletion loop of `cleanupOldSessions`: one tick and one removal per
listed session whose id differs from the active one. -/
theorem cleanupLoop_spec (sid : String) :
    ∀ (ds : List SessionInfo) (acc : Nat × List FsEntry),
      (ds.foldl
        (fun acc session =>
          if session.id ≠ sid then
            (acc.1 + 1, acc.2.filter fun e => e.name ≠ session.id)
          else acc) acc).1
        = acc.1 + (ds.filter fun s => s.id ≠ sid).length ∧
      (ds.foldl
        (fun acc session =>
          if session.id ≠ sid then
            (acc.1 + 1, acc.2.filter fun e => e.name ≠ session.id)
          else acc) acc).2
        = acc.2.filter fun e =>
            (ds.filter fun s => s.id ≠ sid).all fun s => e.name ≠ s.id := by
  intro ds
  induction ds with
  | nil =>
    intro acc
    simp
  | cons s ds ih =>
    intro acc
    by_cases hs : s.id = sid
    · obtain ⟨ih1, ih2⟩ := ih acc
      simp only [List.foldl_cons]
      rw [if_neg (by simp [hs])]
      refine ⟨?_, ?_⟩
      · rw [ih1]
        simp [hs]
      · rw [ih2]
        simp [hs]
    · obtain ⟨ih1, ih2⟩ :=
        ih (acc.1 + 1, acc.2.filter fun e => e.name ≠ s.id)
      simp only [List.foldl_cons]
      rw [if_pos hs]
      refine ⟨?_, ?_⟩
      · rw [ih1]
        simp [hs]
        omega
      · rw [ih2]
        rw [List.filter_filter]
        have hfil : (List.filter (fun s => decide (s.id ≠ sid)) (s :: ds))
            = s :: List.filter (fun s => decide (s.id ≠ sid)) ds := by
          simp [List.filter_cons, hs]
        rw [hfil]
        apply List.filter_congr
        intro e _
        by_cases he : e.name = s.id <;> simp [he]

/-- C7 (amended): `cleanupOldSessions(keepCount)` keeps the `keepCount`
most-recent sessions in the newest-first ordering and deletes exactly those
sessions outside that window whose id is not the currently active
session's, returning their number: the surviving listing is precisely the
original one restricted to entries named by no outside-window non-active
session — so every entry named by an outside-window non-active session is
removed, every other entry (in particular each of the `keepCount`
most-recent sessions and the active session, directory names being unique
in a real listing) survives, and nothing is added.  In particular, with 5
sessions and `keepCount = 2` it deletes 3 only when the active session is
among the 2 most recent or absent from the listing; when the active session
is among the 3 oldest it deletes 2. -/
theorem C7_cleanup_retention (sm : SessionManager) (env : HostEnv)
    (fs : List FsEntry) (keepCount : Nat) :
    (sm.cleanupOldSessions env fs keepCount).1
      = (((listSessions env fs).drop keepCount).filter
          fun s => s.id ≠ sm.sessionId).length ∧
    (sm.cleanupOldSessions env fs keepCount).2
      = fs.filter (fun e =>
          (((listSessions env fs).drop keepCount).filter
            fun s => s.id ≠ sm.sessionId).all fun s => e.name ≠ s.id) ∧
    (∀ e, e ∈ fs → e.name = sm.sessionId →
      e ∈ (sm.cleanupOldSessions env fs keepCount).2) ∧
    (∀ s, s ∈ (listSessions env fs).drop keepCount → s.id ≠ sm.sessionId →
      ∀ e, e ∈ (sm.cleanupOldSessions env fs keepCount).2 → e.name ≠ s.id) ∧
    (∀ e, e ∈ fs →
      (∀ s, s ∈ (listSessions env fs).drop keepCount →
        s.id = sm.sessionId ∨ e.name ≠ s.id) →
      e ∈ (sm.cleanupOldSessions env fs keepCount).2) ∧
    (∀ e, e ∈ (sm.cleanupOldSessions env fs keepCount).2 → e ∈ fs) := by
  have hmain : (sm.cleanupOldSessions env fs keepCount).1
        = (((listSessions env fs).drop keepCount).filter
            fun s => s.id ≠ sm.sessionId).length ∧
      (sm.cleanupOldSessions env fs keepCount).2
        = fs.filter (fun e =>
            (((listSessions env fs).drop keepCount).filter
              fun s => s.id ≠ sm.sessionId).all fun s => e.name ≠ s.id) := by
    unfold SessionManager.cleanupOldSessions
    by_cases hlen : (listSessions env fs).length > keepCount
    · obtain ⟨h1, h2⟩ :=
        cleanupLoop_spec sm.sessionId ((listSessions env fs).drop keepCount)
          (0, fs)
      simp only [if_pos hlen]
      exact ⟨by simpa using h1, by simpa using h2⟩
    · simp only [if_neg hlen]
      have hdrop : (listSessions env fs).drop keepCount = [] :=
        List.drop_eq_nil_of_le (by omega)
      simp [hdrop]
  obtain ⟨hcount, hchar⟩ := hmain
  refine ⟨hcount, hchar, ?_, ?_, ?_, ?_⟩
  · -- the active session's entries always survive
    intro e hmem hname
    rw [hchar]
    apply List.mem_filter.mpr
    refine ⟨hmem, ?_⟩
    apply List.all_eq_true.mpr
    intro s hs
    have hsid : s.id ≠ sm.sessionId := by
      have := List.of_mem_filter hs
      simpa using this
    simp [hname]
    exact fun hcon => hsid hcon.symm
  · -- every session outside the retained window that is not the active one
    -- really is removed from the listing
    intro s hs hsid e hmem
    rw [hchar] at hmem
    obtain ⟨_, hall⟩ := List.mem_filter.mp hmem
    have := List.all_eq_true.mp hall s
      (List.mem_filter.mpr ⟨hs, by simpa using hsid⟩)
    simpa using this
  · -- every other entry survives: in particular the keepCount most-recent
    -- sessions, whose names coincide with no deleted session's id
    intro e hmem hsafe
    rw [hchar]
    apply List.mem_filter.mpr
    refine ⟨hmem, ?_⟩
    apply List.all_eq_true.mpr
    intro s hs
    obtain ⟨hs1, hsid⟩ := List.mem_filter.mp hs
    rcases hsafe s hs1 with h | h
    · exact absurd h (by simpa using hsid)
    · simpa using h
  · -- nothing is ever added
    intro e hmem
    rw [hchar] at hmem
    exact (List.mem_filter.mp hmem).1

/-! ## Claim theorems for the panel manager -/

theorem mapGet_mapSet_self {α : Type} (m : List (String × α)) (k : String)
    (v : α) : mapGet (mapSet m k v) k = some v := by
  induction m with
  | nil => simp [mapSet, mapGet]
  | cons e rest ih =>
    by_cases h : e.1 = k
    · simp [mapSet, mapGet, h]
    · simp [mapSet, mapGet, h, ih]

theorem mapSet_keys_of_isSome {α : Type} (m : List (String × α)) (k : String)
    (v : α) (h : (mapGet m k).isSome) :
    (mapSet m k v).map Prod.fst = m.map Prod.fst := by
  induction m with
  | nil => simp [mapGet] at h
  | cons e rest ih =>
    by_cases he : e.1 = k
    · simp [mapSet, he]
    · simp [mapGet, he] at h
      simp [mapSet, he, ih h]

theorem mapSet_keys_of_none {α : Type} (m : List (String × α)) (k : String)
    (v : α) (h : mapGet m k = none) :
    (mapSet m k v).map Prod.fst = m.map Prod.fst ++ [k] := by
  induction m with
  | nil => simp [mapSet]
  | cons e rest ih =>
    by_cases he : e.1 = k
    · simp [mapGet, he] at h
    · simp [mapGet, he] at h
      simp [mapSet, he, ih h]

/-- The id `show` resolves for a call: the supplied `panelId` when present
and non-empty (JS truthiness), else the generated
`panel-<Date.now()>-<random>`. -/
def showId (env : HostEnv) (panelId : Option String) : String :=
  match panelId with
  | some p => if p = "" then "panel-" ++ env.freshPanelId else p
  | none => "panel-" ++ env.freshPanelId

/-- C8 counterexample: (1) `show` with a `panelId` that names no active
panel uses the provided id `"ghost"` as-is — it does not allocate an id
derived from current time plus a random suffix; (2) when the generated id
collides with a live panel's id, `show` with no `panelId` reuses that panel
instead of creating a new one — `list()` does not grow. -/
theorem C8_counterexample_id_allocation :
    (World.show ⟨⟨[]⟩, ⟨"s", none⟩, [], []⟩ ⟨none, "1700-abc", "t", "r"⟩
        ⟨"wat", none, Json.null, none⟩ (some "ghost")).1
      = .ok ("ghost", none) ∧
    "ghost" ≠ "panel-" ++ "1700-abc" ∧
    (World.show ⟨⟨[]⟩, ⟨"s", none⟩, [("panel-1700-abc", ⟨"t0", "h0"⟩)], []⟩
        ⟨none, "1700-abc", "t", "r"⟩ ⟨"wat", none, Json.null, none⟩
        none).2.panels.length = 1 := by
  refine ⟨rfl, by decide, rfl⟩

/-- C8 (amended): `show` resolves the panel id to the provided `panelId`
when present and non-empty, and to the generated `panel-<time>-<random>` id
only when `panelId` is omitted or empty; a new visual panel is created
exactly when the resolved id does not name an active panel (then `list()`
gains that id at the end), and when it does name an active panel the
existing panel is reused in place (`list()` unchanged); on success the
returned panel id is the resolved id. -/
theorem C8_show_allocation (w : World) (env : HostEnv) (artifact : Artifact)
    (panelId : Option String) :
    ((World.show w env artifact panelId).2.panels.map Prod.fst
        = if (mapGet w.panels (showId env panelId)).isSome then
            w.panels.map Prod.fst
          else
            w.panels.map Prod.fst ++ [showId env panelId]) ∧
    (∀ res, (World.show w env artifact panelId).1 = .ok res →
      res.1 = showId env panelId) := by
  have hid : (match panelId with
      | some p => if p = "" then "panel-" ++ env.freshPanelId else p
      | none => "panel-" ++ env.freshPanelId) = showId env panelId := rfl
  constructor
  · simp only [World.show, hid]
    cases hget : mapGet w.panels (showId env panelId) with
    | some panel =>
      cases hr : PluginManager.render w.plugins artifact with
      | error e => simp [hget, hr]
      | ok content =>
        simp [hget, hr,
          mapSet_keys_of_isSome w.panels (showId env panelId) _
            (by simp [hget])]
    | none =>
      cases hr : PluginManager.render w.plugins artifact with
      | error e =>
        simp [hget, hr, mapSet_keys_of_none w.panels (showId env panelId) _ hget]
      | ok content =>
        have h1 := mapSet_keys_of_none w.panels (showId env panelId)
          (⟨match artifact.title with
             | some t => if t = "" then artifact.type ++ " artifact" else t
             | none => artifact.type ++ " artifact", ""⟩ : Panel) hget
        simp only [hget, hr]
        rw [mapSet_keys_of_isSome _ (showId env panelId) _
            (by rw [mapGet_mapSet_self]; rfl), h1]
        simp
  · intro res hres
    simp only [World.show, hid] at hres
    cases hget : mapGet w.panels (showId env panelId) with
    | none =>
      cases hr : PluginManager.render w.plugins artifact with
      | error e => simp [hget, hr] at hres
      | ok content =>
        simp [hget, hr] at hres
        subst hres
        rfl
    | some panel =>
      cases hr : PluginManager.render w.plugins artifact with
      | error e => simp [hget, hr] at hres
      | ok content =>
        simp [hget, hr] at hres
        subst hres
        rfl

/-! ## Claim theorems for persistence -/

/-- With the store uninitialized and no workspace root, `saveArtifact`
returns a null path and leaves the store untouched. -/
theorem saveArtifact_no_root (sm : SessionManager) (env : HostEnv)
    (artifact : Artifact) (content : String)
    (h1 : sm.sessionPath = none) (h2 : env.workspaceRoot = none) :
    sm.saveArtifact env artifact content = (none, sm) := by
  simp [SessionManager.saveArtifact, SessionManager.getSessionPath, h1, h2]

/-- C9: when no base storage root is available, both persistence calls
return a null path without error and the session store remains
uninitialized (the state is returned unchanged, `sessionPath` still
`none`). -/
theorem C9_no_storage_root (sm : SessionManager) (env : HostEnv)
    (artifact : Artifact) (content : String) (extension : String)
    (h1 : sm.sessionPath = none) (h2 : env.workspaceRoot = none) :
    sm.saveArtifact env artifact content = (none, sm) ∧
    sm.saveBinaryArtifact env artifact extension = (none, sm) := by
  refine ⟨saveArtifact_no_root sm env artifact content h1 h2, ?_⟩
  simp [SessionManager.saveBinaryArtifact, SessionManager.getSessionPath,
    h1, h2]

/-- Witness for C9 at a concrete uninitialized store. -/
theorem C9_no_storage_root_witness :
    (⟨"sid", none⟩ : SessionManager).sessionPath = none ∧
    (⟨none, "p", "t", "r"⟩ : HostEnv).workspaceRoot = none ∧
    (SessionManager.saveArtifact ⟨"sid", none⟩ ⟨none, "p", "t", "r"⟩
        ⟨"chart", none, Json.null, none⟩ "c" = (none, ⟨"sid", none⟩) ∧
     SessionManager.saveBinaryArtifact ⟨"sid", none⟩ ⟨none, "p", "t", "r"⟩
        ⟨"chart", none, Json.null, none⟩ "png" = (none, ⟨"sid", none⟩)) :=
  ⟨rfl, rfl,
   C9_no_storage_root ⟨"sid", none⟩ ⟨none, "p", "t", "r"⟩
     ⟨"chart", none, Json.null, none⟩ "c" "png" rfl rfl⟩

/-- C10: while persistence is unavailable (uninitialized store, no
workspace root), `show` and `update` leave the recorded file paths
untouched: `getFilePath` still answers the prior path for every panel. -/
theorem C10_file_path_preserved (w : World) (env : HostEnv)
    (artifact : Artifact) (panelId : Option String) (pid q : String)
    (h1 : w.session.sessionPath = none) (h2 : env.workspaceRoot = none) :
    (World.show w env artifact panelId).2.panelFiles = w.panelFiles ∧
    World.getFilePath (World.show w env artifact panelId).2 q
      = World.getFilePath w q ∧
    (World.update w env pid artifact).2.panelFiles = w.panelFiles ∧
    World.getFilePath (World.update w env pid artifact).2 q
      = World.getFilePath w q := by
  have hsave : ∀ content,
      w.session.saveArtifact env artifact content = (none, w.session) :=
    fun content => saveArtifact_no_root w.session env artifact content h1 h2
  have hshow : (World.show w env artifact panelId).2.panelFiles
      = w.panelFiles := by
    simp only [World.show]
    cases hr : PluginManager.render w.plugins artifact with
    | error e => simp [hr]
    | ok content => simp [hr, hsave]
  have hupd : (World.update w env pid artifact).2.panelFiles
      = w.panelFiles := by
    simp only [World.update]
    cases hget : mapGet w.panels pid with
    | none => simp [hget]
    | some panel =>
      cases hr : PluginManager.render w.plugins artifact with
      | error e => simp [hget, hr]
      | ok content => simp [hget, hr, hsave]
  exact ⟨hshow, by simp [World.getFilePath, hshow], hupd,
    by simp [World.getFilePath, hupd]⟩

/-- Witness for C10: a panel with a previously recorded path keeps it
through a `show` and an `update` that cannot persist. -/
theorem C10_file_path_preserved_witness :
    World.getFilePath
        ⟨⟨[]⟩, ⟨"s", none⟩, [("p1", ⟨"T", "H"⟩)], [("p1", "/old/path")]⟩ "p1"
      = some "/old/path" ∧
    ((World.show ⟨⟨[]⟩, ⟨"s", none⟩, [("p1", ⟨"T", "H"⟩)], [("p1", "/old/path")]⟩
        ⟨none, "x", "t", "r"⟩ ⟨"wat", none, Json.null, none⟩
        (some "p1")).2.panelFiles = [("p1", "/old/path")] ∧
     World.getFilePath
        (World.show ⟨⟨[]⟩, ⟨"s", none⟩, [("p1", ⟨"T", "H"⟩)], [("p1", "/old/path")]⟩
          ⟨none, "x", "t", "r"⟩ ⟨"wat", none, Json.null, none⟩
          (some "p1")).2 "p1"
       = World.getFilePath
          ⟨⟨[]⟩, ⟨"s", none⟩, [("p1", ⟨"T", "H"⟩)], [("p1", "/old/path")]⟩ "p1" ∧
     (World.update ⟨⟨[]⟩, ⟨"s", none⟩, [("p1", ⟨"T", "H"⟩)], [("p1", "/old/path")]⟩
        ⟨none, "x", "t", "r"⟩ "p1" ⟨"wat", none, Json.null, none⟩).2.panelFiles
       = [("p1", "/old/path")] ∧
     World.getFilePath
        (World.update ⟨⟨[]⟩, ⟨"s", none⟩, [("p1", ⟨"T", "H"⟩)], [("p1", "/old/path")]⟩
          ⟨none, "x", "t", "r"⟩ "p1" ⟨"wat", none, Json.null, none⟩).2 "p1"
       = World.getFilePath
          ⟨⟨[]⟩, ⟨"s", none⟩, [("p1", ⟨"T", "H"⟩)], [("p1", "/old/path")]⟩ "p1") :=
  ⟨rfl,
   C10_file_path_preserved
     ⟨⟨[]⟩, ⟨"s", none⟩, [("p1", ⟨"T", "H"⟩)], [("p1", "/old/path")]⟩
     ⟨none, "x", "t", "r"⟩ ⟨"wat", none, Json.null, none⟩
     (some "p1") "p1" "p1" rfl rfl⟩

end PrettyCli
